import Mathlib

/-!
Verification of the ANCS client engine of this repository.

The engine lives in two parallel implementations:
* `src/unnamed/part_005` — the queue-based engine (`BluetoothService` with a
  single-flight `AttributeRequest` queue, timeout/retry, multi-packet
  Data Source reassembly via `tryParseDataSourceResponse`/`parseAttributes`);
* `src/lib/bluetooth-service.ts` — the variant with the connection lock
  (`connectToDevice`) and the literal Get Notification Attributes command
  build (`requestNotificationAttributes`).

Bytes are modelled as `Nat` (a `Buffer` entry is 0..255; the arithmetic in
the embedding only ever produces values in that range).  Attribute values
are kept as raw byte lists — the TS code decodes them as UTF-8 strings,
which is a representation change that none of the verified properties
inspect.  JavaScript `Buffer` reads are modelled with their little-endian
arithmetic meaning.
-/

namespace ANCS

/-- `Buffer.readUInt16LE` at offset `off`: little-endian 16-bit read. -/
def readUInt16LE (bs : List Nat) (off : Nat) : Nat :=
  bs.getD off 0 + 256 * bs.getD (off + 1) 0

/-- `Buffer.readUInt32LE` at offset `off`: little-endian 32-bit read. -/
def readUInt32LE (bs : List Nat) (off : Nat) : Nat :=
  bs.getD off 0 + 256 * bs.getD (off + 1) 0
    + 65536 * bs.getD (off + 2) 0 + 16777216 * bs.getD (off + 3) 0

/-- A decoded Notification Source event, from
`handleNotificationSourceNotification` (src/unnamed/part_005, lines 436–440):
EventId, EventFlags, CategoryId, CategoryCount are bytes 0–3 and the UID is
`readUInt32LE(4)` of the packet. -/
structure NSEvent where
  eventId : Nat
  eventFlags : Nat
  categoryId : Nat
  categoryCount : Nat
  notificationUid : Nat
  deriving DecidableEq

/-- The Notification Source decode step of the engine
(src/unnamed/part_005, lines 431–440): packets shorter than 8 bytes are
rejected (`data.length < 8` → the handler returns, dropping the event);
otherwise the five fields are read at their fixed offsets. -/
def decodeNotificationSource (bs : List Nat) : Option NSEvent :=
  if bs.length < 8 then none
  else some {
    eventId := bs.getD 0 0
    eventFlags := bs.getD 1 0
    categoryId := bs.getD 2 0
    categoryCount := bs.getD 3 0
    notificationUid := readUInt32LE bs 4 }

/-- The four little-endian bytes of `uid`, as produced by the byte
arithmetic `uid & 0xff, (uid >> 8) & 0xff, (uid >> 16) & 0xff,
(uid >> 24) & 0xff` of `requestNotificationAttributes`
(src/lib/bluetooth-service.ts, lines 454–457).  For `uid < 2^32` the JS
`int32` coercion of those operators yields exactly these digit values. -/
def uidBytesLE (uid : Nat) : List Nat :=
  [uid % 256, uid / 256 % 256, uid / 65536 % 256, uid / 16777216 % 256]

/-- The Get Notification Attributes command of
`requestNotificationAttributes` (src/lib/bluetooth-service.ts,
lines 451–473): command id 0, UID little-endian, then AppIdentifier (0, no
length), Title (1, max 255 = ff 00), Subtitle (2, max 255), Message
(3, max 500 = f4 01), Date (5, no length). -/
def requestAttributesCommand (uid : Nat) : List Nat :=
  [0] ++ uidBytesLE uid ++ [0, 1, 0xff, 0x00, 2, 0xff, 0x00, 3, 0xf4, 0x01, 5]

/-- The Data Source response header read of `tryParseDataSourceResponse`
(src/unnamed/part_005, lines 645–654): with at least 5 buffered bytes, the
command id is byte 0 and the UID is `readUInt32LE(1)`. -/
def decodeResponseHeader (bs : List Nat) : Option (Nat × Nat) :=
  if bs.length < 5 then none
  else some (bs.getD 0 0, readUInt32LE bs 1)

/-- The optional attribute set built by `parseAttributes`
(src/unnamed/part_005, lines 723–781).  Values are raw byte lists (the TS
code stores their UTF-8 decoding); `some []` is a present zero-length
value, distinct from `none` = absent. -/
structure Attributes where
  appIdentifier : Option (List Nat) := none
  title : Option (List Nat) := none
  subtitle : Option (List Nat) := none
  message : Option (List Nat) := none
  date : Option (List Nat) := none
  deriving DecidableEq

/-- The attribute set before any record has been decoded
(`const attributes = {}`, src/unnamed/part_005, line 724). -/
def Attributes.empty : Attributes := {}

/-- The `switch (attrId)` of `parseAttributes` (src/unnamed/part_005,
lines 755–771): recognized ids store the value, unknown ids are consumed
without being stored. -/
def applyAttr (a : Attributes) (id : Nat) (v : List Nat) : Attributes :=
  match id with
  | 0 => { a with appIdentifier := some v }
  | 1 => { a with title := some v }
  | 2 => { a with subtitle := some v }
  | 3 => { a with message := some v }
  | 5 => { a with date := some v }
  | _ => a

/-- `expectedAttributes = 5` (src/unnamed/part_005, line 727): the command
of this engine requests exactly the five attributes AppIdentifier, Title,
Subtitle, Message, Date, and the parser terminates on that count. -/
def expectedAttributes : Nat := 5

/-- The attribute-decoding loop of `parseAttributes` (src/unnamed/part_005,
lines 729–780), with `fuel = expectedAttributes - parsedCount` records left
to decode and the data still unconsumed passed as a list.  Each record is
1 byte id, 2 bytes little-endian length, `length` bytes of value; a record
cut short at any of those three reads yields `none` (`NeedMoreData`); once
`parsedCount` reaches the expected count the accumulated attribute set is
returned (the code then also returns it after the loop, since the
post-loop guard `parsedCount < expectedAttributes` fails). -/
def parseAttrsGo : Nat → List Nat → Attributes → Option Attributes
  | 0, _, acc => some acc
  | _ + 1, [], _ => none
  | _ + 1, [_], _ => none
  | _ + 1, [_, _], _ => none
  | fuel + 1, id :: l0 :: l1 :: rest, acc =>
    if rest.length < l0 + 256 * l1 then none
    else parseAttrsGo fuel (rest.drop (l0 + 256 * l1))
      (applyAttr acc id (rest.take (l0 + 256 * l1)))

/-- `parseAttributes` (src/unnamed/part_005, lines 723–781): decode
`expectedAttributes` records from the data that follows the 5-byte
response header; `none` means "need more data". -/
def parseAttributes (bs : List Nat) : Option Attributes :=
  parseAttrsGo expectedAttributes bs Attributes.empty

/-- The number of complete attribute records (1-byte id, 2 byte LE length,
full value) that can be decoded from the front of a buffer. -/
def decodableCount : List Nat → Nat
  | [] => 0
  | [_] => 0
  | [_, _] => 0
  | _ :: l0 :: l1 :: rest =>
    if h : rest.length < l0 + 256 * l1 then 0
    else decodableCount (rest.drop (l0 + 256 * l1)) + 1
termination_by bs => bs.length
decreasing_by
  simp only [List.length_drop, List.length_cons]
  omega

/-- The in-flight `AttributeRequest` as seen by the reassembly path
(src/unnamed/part_005, lines 99–106): its UID and retry counter. -/
structure RReq where
  uid : Nat
  retryCount : Nat
  deriving DecidableEq

/-- The reassembly-relevant state of the engine (src/unnamed/part_005):
`dataSourceBuffer`, `currentRequest`, `expectedResponseUid`. -/
structure RState where
  buffer : List Nat
  current : Option RReq
  expectedUid : Option Nat
  deriving DecidableEq

/-- The outcome of one Data Source delivery, mirroring the control flow of
`tryParseDataSourceResponse` (src/unnamed/part_005, lines 644–721):
no current request / fewer than 5 buffered bytes / command-id mismatch /
UID mismatch (each an early `return` with the buffer kept), `needMore`
(`parseAttributes` returned null), or completion with the parsed set. -/
inductive FeedOutcome where
  | noRequest
  | tooShort
  | badCmd
  | badUid
  | needMore
  | complete (a : Attributes)
  deriving DecidableEq

/-- One Data Source delivery: `handleDataSourceNotification`
(src/unnamed/part_005, lines 485–498) appends the chunk to
`dataSourceBuffer` and runs `tryParseDataSourceResponse` (lines 644–721).
On completion the request is resolved and the buffer, current request and
expected UID are cleared (lines 709–712); on every other outcome the whole
buffer is retained and the request stays in flight. -/
def feed (s : RState) (chunk : List Nat) : RState × FeedOutcome :=
  let b := s.buffer ++ chunk
  match s.current with
  | none => ({ s with buffer := b }, .noRequest)
  | some _ =>
    if b.length < 5 then ({ s with buffer := b }, .tooShort)
    else if b.getD 0 0 ≠ 0 then ({ s with buffer := b }, .badCmd)
    else if s.expectedUid ≠ some (readUInt32LE b 1) then
      ({ s with buffer := b }, .badUid)
    else match parseAttributes (b.drop 5) with
      | none => ({ s with buffer := b }, .needMore)
      | some a => (⟨[], none, none⟩, .complete a)

/-- The reassembly state right after a request for `u` is promoted to
in-flight (src/unnamed/part_005, lines 548–555): empty buffer, the request
current, expected UID set. -/
def initR (u : Nat) : RState := ⟨[], some ⟨u, 0⟩, some u⟩

/-- A sequence of Data Source deliveries, returning the final state and
the attribute set of the first completed response, if any.  (After a
completion the current request is cleared, so later deliveries return
`noRequest` and no second completion can occur in one request's run.) -/
def feedAll (s : RState) : List (List Nat) → RState × Option Attributes
  | [] => (s, none)
  | c :: cs =>
    match feed s c with
    | (s1, .complete a) => ((feedAll s1 cs).1, some a)
    | (s1, _) => feedAll s1 cs

/-- Extending the data on the right cannot change a successful record
decode: each record's reads stay inside the original bytes. -/
theorem parseAttrsGo_append : ∀ (fuel : Nat) (bs t : List Nat) (acc a : Attributes),
    parseAttrsGo fuel bs acc = some a →
    parseAttrsGo fuel (bs ++ t) acc = some a
  | 0, _, _, _, _, h => h
  | _ + 1, [], _, _, _, h => by simp [parseAttrsGo] at h
  | _ + 1, [_], _, _, _, h => by simp [parseAttrsGo] at h
  | _ + 1, [_, _], _, _, _, h => by simp [parseAttrsGo] at h
  | n + 1, id :: l0 :: l1 :: rest, t, acc, a, h => by
    simp only [List.cons_append]
    simp only [parseAttrsGo] at h ⊢
    by_cases hlen : rest.length < l0 + 256 * l1
    · rw [if_pos hlen] at h; cases h
    · have hle : l0 + 256 * l1 ≤ rest.length := Nat.le_of_not_lt hlen
      rw [if_neg hlen] at h
      rw [if_neg (by rw [List.length_append]; omega),
        List.take_append_of_le_length hle, List.drop_append_of_le_length hle]
      exact parseAttrsGo_append n _ t _ a h

/-- The decode loop succeeds exactly when the buffer holds at least `fuel`
complete records. -/
theorem parseAttrsGo_isSome_iff : ∀ (fuel : Nat) (bs : List Nat) (acc : Attributes),
    (parseAttrsGo fuel bs acc).isSome ↔ fuel ≤ decodableCount bs
  | 0, _, _ => by simp [parseAttrsGo]
  | _ + 1, [], _ => by simp [parseAttrsGo, decodableCount]
  | _ + 1, [_], _ => by simp [parseAttrsGo, decodableCount]
  | _ + 1, [_, _], _ => by simp [parseAttrsGo, decodableCount]
  | n + 1, id :: l0 :: l1 :: rest, acc => by
    simp only [parseAttrsGo, decodableCount]
    by_cases hlen : rest.length < l0 + 256 * l1
    · simp [hlen]
    · simp only [if_neg hlen, dif_neg hlen,
        parseAttrsGo_isSome_iff n (rest.drop (l0 + 256 * l1))]
      omega

/-- A buffer loaded into the state and consumed by one more delivery is
processed exactly like the concatenation delivered onto an empty buffer. -/
theorem feed_shift (p c : List Nat) (cur : Option RReq) (exp : Option Nat) :
    feed ⟨p, cur, exp⟩ c = feed ⟨[], cur, exp⟩ (p ++ c) := by
  cases cur <;> simp [feed]

/-- Every outcome other than completion keeps the whole accumulated buffer
and leaves the in-flight request and expected UID untouched. -/
theorem feed_fst_of_ne_complete (s : RState) (c : List Nat)
    (h : ∀ a, (feed s c).2 ≠ .complete a) :
    (feed s c).1 = { s with buffer := s.buffer ++ c } := by
  obtain ⟨buf, cur, exp⟩ := s
  cases cur with
  | none => rfl
  | some r =>
    by_cases h1 : (buf ++ c).length < 5
    · simp only [feed, if_pos h1]
    · by_cases h2 : (buf ++ c).getD 0 0 ≠ 0
      · simp only [feed, if_neg h1, if_pos h2]
      · by_cases h3 : (exp ≠ some (readUInt32LE (buf ++ c) 1))
        · simp only [feed, if_neg h1, if_neg h2, if_pos h3]
        · cases hpa : parseAttributes ((buf ++ c).drop 5) with
          | none => simp only [feed, if_neg h1, if_neg h2, if_neg h3, hpa]
          | some a =>
            exfalso
            apply h a
            simp only [feed, if_neg h1, if_neg h2, if_neg h3, hpa]

/-- Characterization of a completing delivery from a freshly promoted
request: at least 5 bytes, command id 0, matching UID, and a full
attribute set after the header. -/
theorem feed_initR_complete_iff (u : Nat) (q : List Nat) (a : Attributes) :
    (feed (initR u) q).2 = .complete a ↔
      5 ≤ q.length ∧ q.getD 0 0 = 0 ∧ readUInt32LE q 1 = u ∧
        parseAttributes (q.drop 5) = some a := by
  simp only [feed, initR, List.nil_append]
  by_cases h1 : q.length < 5
  · rw [if_pos h1]
    exact iff_of_false (fun h => FeedOutcome.noConfusion h)
      (fun h => absurd h.1 (by omega))
  · rw [if_neg h1]
    by_cases h2 : q.getD 0 0 ≠ 0
    · rw [if_pos h2]
      exact iff_of_false (fun h => FeedOutcome.noConfusion h)
        (fun h => h2 h.2.1)
    · rw [if_neg h2]
      by_cases h3 : (some u : Option Nat) ≠ some (readUInt32LE q 1)
      · rw [if_pos h3]
        refine iff_of_false (fun h => FeedOutcome.noConfusion h) ?_
        rintro ⟨-, -, h, -⟩
        exact h3 (by rw [h])
      · rw [if_neg h3]
        have huid : readUInt32LE q 1 = u :=
          (Option.some_inj.mp (not_not.mp h3)).symm
        cases hpa : parseAttributes (q.drop 5) with
        | none =>
          simp only [hpa]
          refine iff_of_false (fun h => FeedOutcome.noConfusion h) ?_
          rintro ⟨-, -, -, h⟩
          exact Option.noConfusion h
        | some a0 =>
          simp only [hpa]
          constructor
          · intro h
            injection h with h
            subst h
            exact ⟨by omega, not_not.mp h2, huid, rfl⟩
          · rintro ⟨-, -, -, h⟩
            injection h with h
            rw [h]

/-- A completed response stays completed, with the same attribute set,
when more bytes are appended after it. -/
theorem feed_complete_mono (u : Nat) (q t : List Nat) (a : Attributes)
    (h : (feed (initR u) q).2 = .complete a) :
    (feed (initR u) (q ++ t)).2 = .complete a := by
  rw [feed_initR_complete_iff] at h ⊢
  obtain ⟨hlen, hcmd, huid, hpa⟩ := h
  refine ⟨by rw [List.length_append]; omega, ?_, ?_, ?_⟩
  · rw [List.getD_append _ _ _ _ (by omega)]
    exact hcmd
  · unfold readUInt32LE at huid ⊢
    rw [List.getD_append _ _ _ _ (by omega), List.getD_append _ _ _ _ (by omega),
      List.getD_append _ _ _ _ (by omega), List.getD_append _ _ _ _ (by omega)]
    exact huid
  · rw [List.drop_append_of_le_length hlen]
    exact parseAttrsGo_append _ _ t _ a hpa

/-- Main fragmentation induction: from any already-buffered proper prefix
that has not completed, delivering the remaining chunks produces the
attribute set of the full response. -/
theorem feedAll_frag_aux (u : Nat) (bs : List Nat) (A : Attributes)
    (hbs : (feed (initR u) bs).2 = .complete A) :
    ∀ (cs : List (List Nat)) (p : List Nat), p ++ cs.flatten = bs →
      (∀ a, (feed (initR u) p).2 ≠ .complete a) →
      (feedAll ⟨p, some ⟨u, 0⟩, some u⟩ cs).2 = some A := by
  intro cs
  induction cs with
  | nil =>
    intro p hjoin hp
    simp only [List.flatten_nil, List.append_nil] at hjoin
    subst hjoin
    exact absurd hbs (hp A)
  | cons c cs ih =>
    intro p hjoin hp
    have hshift : feed ⟨p, some ⟨u, 0⟩, some u⟩ c = feed (initR u) (p ++ c) :=
      feed_shift p c (some ⟨u, 0⟩) (some u)
    have hjoin2 : (p ++ c) ++ cs.flatten = bs := by
      rw [List.append_assoc]
      simpa [List.flatten_cons] using hjoin
    cases hoc : feed (initR u) (p ++ c) with
    | mk s1 o =>
      have houtcome : (feed ⟨p, some ⟨u, 0⟩, some u⟩ c) = (s1, o) := by
        rw [hshift, hoc]
      cases o with
      | complete a =>
        have hmono : (feed (initR u) ((p ++ c) ++ cs.flatten)).2 = .complete a :=
          feed_complete_mono u (p ++ c) cs.flatten a (by rw [hoc])
        rw [hjoin2, hbs] at hmono
        cases hmono
        simp only [feedAll, houtcome]
      | noRequest =>
        have hs1 : s1 = ⟨p ++ c, some ⟨u, 0⟩, some u⟩ := by
          have hne : ∀ a, (feed ⟨p, some ⟨u, 0⟩, some u⟩ c).2 ≠ .complete a := by
            intro a ha
            rw [houtcome] at ha
            cases ha
          have := feed_fst_of_ne_complete ⟨p, some ⟨u, 0⟩, some u⟩ c hne
          rw [houtcome] at this
          exact this
        simp only [feedAll, houtcome, hs1]
        exact ih (p ++ c) hjoin2 (fun a ha => by rw [hoc] at ha; cases ha)
      | tooShort =>
        have hs1 : s1 = ⟨p ++ c, some ⟨u, 0⟩, some u⟩ := by
          have hne : ∀ a, (feed ⟨p, some ⟨u, 0⟩, some u⟩ c).2 ≠ .complete a := by
            intro a ha
            rw [houtcome] at ha
            cases ha
          have := feed_fst_of_ne_complete ⟨p, some ⟨u, 0⟩, some u⟩ c hne
          rw [houtcome] at this
          exact this
        simp only [feedAll, houtcome, hs1]
        exact ih (p ++ c) hjoin2 (fun a ha => by rw [hoc] at ha; cases ha)
      | badCmd =>
        have hs1 : s1 = ⟨p ++ c, some ⟨u, 0⟩, some u⟩ := by
          have hne : ∀ a, (feed ⟨p, some ⟨u, 0⟩, some u⟩ c).2 ≠ .complete a := by
            intro a ha
            rw [houtcome] at ha
            cases ha
          have := feed_fst_of_ne_complete ⟨p, some ⟨u, 0⟩, some u⟩ c hne
          rw [houtcome] at this
          exact this
        simp only [feedAll, houtcome, hs1]
        exact ih (p ++ c) hjoin2 (fun a ha => by rw [hoc] at ha; cases ha)
      | badUid =>
        have hs1 : s1 = ⟨p ++ c, some ⟨u, 0⟩, some u⟩ := by
          have hne : ∀ a, (feed ⟨p, some ⟨u, 0⟩, some u⟩ c).2 ≠ .complete a := by
            intro a ha
            rw [houtcome] at ha
            cases ha
          have := feed_fst_of_ne_complete ⟨p, some ⟨u, 0⟩, some u⟩ c hne
          rw [houtcome] at this
          exact this
        simp only [feedAll, houtcome, hs1]
        exact ih (p ++ c) hjoin2 (fun a ha => by rw [hoc] at ha; cases ha)
      | needMore =>
        have hs1 : s1 = ⟨p ++ c, some ⟨u, 0⟩, some u⟩ := by
          have hne : ∀ a, (feed ⟨p, some ⟨u, 0⟩, some u⟩ c).2 ≠ .complete a := by
            intro a ha
            rw [houtcome] at ha
            cases ha
          have := feed_fst_of_ne_complete ⟨p, some ⟨u, 0⟩, some u⟩ c hne
          rw [houtcome] at this
          exact this
        simp only [feedAll, houtcome, hs1]
        exact ih (p ++ c) hjoin2 (fun a ha => by rw [hoc] at ha; cases ha)

/-- C2: reassembly is invariant under fragmentation.  If delivering a
complete Data Source response `bs` to a freshly promoted request in a
single delivery completes with attribute set `A`, then delivering the
identical bytes split into any chunks whose concatenation is `bs` (in
particular, split at every possible byte boundary), with the unconsumed
buffer retained between deliveries, also produces exactly `A`. -/
theorem c2_fragmentation (u : Nat) (bs : List Nat) (A : Attributes)
    (h : (feed (initR u) bs).2 = .complete A) :
    ∀ cs : List (List Nat), cs.flatten = bs → (feedAll (initR u) cs).2 = some A := by
  intro cs hcs
  refine feedAll_frag_aux u bs A h cs [] (by simpa using hcs) ?_
  intro a ha
  simp [feed, initR] at ha

/-- Witness for C2: a complete 5-attribute response for UID 42 (with
zero-length subtitle, message and date values), fed whole and fed as three
fragments cut inside the header, inside a length field and inside a value,
produces the same attribute set. -/
theorem c2_witness :
    (feed (initR 42)
        [0, 42, 0, 0, 0, 0, 0, 0, 1, 1, 0, 72, 2, 0, 0, 3, 0, 0, 5, 0, 0]).2 =
      .complete ⟨some [], some [72], some [], some [], some []⟩ ∧
    (feedAll (initR 42)
        [[0, 42, 0], [0, 0, 0, 0, 0, 1, 1], [0, 72, 2, 0, 0, 3, 0, 0, 5, 0, 0]]).2 =
      some ⟨some [], some [72], some [], some [], some []⟩ := by
  refine ⟨by decide, ?_⟩
  exact c2_fragmentation 42
    [0, 42, 0, 0, 0, 0, 0, 0, 1, 1, 0, 72, 2, 0, 0, 3, 0, 0, 5, 0, 0]
    ⟨some [], some [72], some [], some [], some []⟩ (by decide)
    [[0, 42, 0], [0, 0, 0, 0, 0, 1, 1], [0, 72, 2, 0, 0, 3, 0, 0, 5, 0, 0]]
    (by decide)

/-- C4: completion condition of the reassembler.  For a buffered response
with a valid 5-byte header (command id 0, UID equal to the expected
in-flight UID), the delivery completes exactly when the bytes after the
header contain at least `expectedAttributes` (= 5, the number of
attributes requested by the originating command) complete attribute
records — so a result is never emitted with fewer decoded attributes than
requested — and when a record is cut short the outcome is `needMore`
(not an error) with the whole buffer retained for the next delivery. -/
theorem c4_completion (s : RState) (c : List Nat) (r : RReq) (u : Nat)
    (hcur : s.current = some r) (hexp : s.expectedUid = some u)
    (hlen : 5 ≤ (s.buffer ++ c).length)
    (hcmd : (s.buffer ++ c).getD 0 0 = 0)
    (huid : readUInt32LE (s.buffer ++ c) 1 = u) :
    ((∃ a, (feed s c).2 = .complete a) ↔
      expectedAttributes ≤ decodableCount ((s.buffer ++ c).drop 5)) ∧
    ((feed s c).2 = .needMore →
      (feed s c).1 = { s with buffer := s.buffer ++ c }) := by
  obtain ⟨buf, cur, exp⟩ := s
  simp only at hcur hexp
  subst hcur hexp
  dsimp only at hlen hcmd huid ⊢
  simp only [feed]
  have hc1 : ¬((buf ++ c).length < 5) := by omega
  have hc2 : ¬((buf ++ c).getD 0 0 ≠ 0) := not_not.mpr hcmd
  have hc3 : ¬((some u : Option Nat) ≠ some (readUInt32LE (buf ++ c) 1)) := by
    rw [huid]
    exact not_not.mpr rfl
  rw [if_neg hc1, if_neg hc2, if_neg hc3]
  have hiff := parseAttrsGo_isSome_iff expectedAttributes
    ((buf ++ c).drop 5) Attributes.empty
  cases hpa : parseAttributes ((buf ++ c).drop 5) with
  | none =>
    simp only [parseAttributes] at hpa
    rw [hpa] at hiff
    simp only [Option.isSome_none, Bool.false_eq_true, false_iff] at hiff
    simp only [parseAttributes, hpa]
    refine ⟨iff_of_false ?_ hiff, by trivial⟩
    rintro ⟨a, ha⟩
    exact FeedOutcome.noConfusion ha
  | some a0 =>
    simp only [parseAttributes] at hpa
    rw [hpa] at hiff
    simp only [Option.isSome_some, true_iff] at hiff
    simp only [parseAttributes, hpa]
    exact ⟨iff_of_true ⟨a0, rfl⟩ hiff, fun h => FeedOutcome.noConfusion h⟩

/-- Witness for C4: a valid header followed by a truncated record yields
`needMore` with the buffer retained, matching the zero decodable-record
count. -/
theorem c4_witness :
    ((∃ a, (feed ⟨[0, 42, 0, 0, 0, 1], some ⟨42, 0⟩, some 42⟩ [2]).2 = .complete a) ↔
      expectedAttributes ≤ decodableCount (([0, 42, 0, 0, 0, 1] ++ [2]).drop 5)) ∧
    ((feed ⟨[0, 42, 0, 0, 0, 1], some ⟨42, 0⟩, some 42⟩ [2]).2 = .needMore →
      (feed ⟨[0, 42, 0, 0, 0, 1], some ⟨42, 0⟩, some 42⟩ [2]).1 =
        { buffer := [0, 42, 0, 0, 0, 1] ++ [2], current := some ⟨42, 0⟩,
          expectedUid := some 42 }) :=
  c4_completion ⟨[0, 42, 0, 0, 0, 1], some ⟨42, 0⟩, some 42⟩ [2] ⟨42, 0⟩ 42
    rfl rfl (by decide) (by decide) (by decide)

/-- C6 counterexample: the claim says a Data Source response whose UID
differs from the expected in-flight UID is treated as a failed attempt
counting toward the bounded retry.  In the code
(`tryParseDataSourceResponse`, src/unnamed/part_005, lines 656–664) the
mismatch only logs a warning and returns: feeding the mismatched response
`[0, 2, 0, 0, 0]` to a request in flight for UID 1 with `retryCount = 0`
leaves the request in flight with `retryCount` still 0 (not incremented to
1), resolves nothing, and merely keeps the bytes in the buffer. -/
theorem c6_counterexample :
    (feed ⟨[], some ⟨1, 0⟩, some 1⟩ [0, 2, 0, 0, 0]).2 = .badUid ∧
    (feed ⟨[], some ⟨1, 0⟩, some 1⟩ [0, 2, 0, 0, 0]).1.current = some ⟨1, 0⟩ ∧
    (feed ⟨[], some ⟨1, 0⟩, some 1⟩ [0, 2, 0, 0, 0]).1.current ≠ some ⟨1, 1⟩ ∧
    (feed ⟨[], some ⟨1, 0⟩, some 1⟩ [0, 2, 0, 0, 0]).1.buffer = [0, 2, 0, 0, 0] := by
  decide

/-- C6 as amended: when a Data Source response with ≥ 5 buffered bytes has
a command id other than 0 or a UID different from the expected in-flight
UID, the engine logs and ignores it — the buffer retains the bytes, the
in-flight request (and its retry counter) is unchanged, nothing is
resolved, and the engine does not crash (the handler is total); recovery
is left to the request timeout rather than an immediate retry-counting
failure. -/
theorem c6_mismatch_ignored (s : RState) (c : List Nat) (r : RReq) (u : Nat)
    (hcur : s.current = some r) (hexp : s.expectedUid = some u)
    (hlen : 5 ≤ (s.buffer ++ c).length)
    (hbad : (s.buffer ++ c).getD 0 0 ≠ 0 ∨ readUInt32LE (s.buffer ++ c) 1 ≠ u) :
    (feed s c).1 = { s with buffer := s.buffer ++ c } ∧
    ((feed s c).2 = .badCmd ∨ (feed s c).2 = .badUid) := by
  obtain ⟨buf, cur, exp⟩ := s
  simp only at hcur hexp
  subst hcur hexp
  dsimp only at hlen hbad ⊢
  simp only [feed]
  rw [if_neg (by omega)]
  by_cases hcmd : (buf ++ c).getD 0 0 ≠ 0
  · rw [if_pos hcmd]
    exact ⟨rfl, Or.inl rfl⟩
  · rw [if_neg hcmd]
    have huid : readUInt32LE (buf ++ c) 1 ≠ u := by
      rcases hbad with h | h
      · exact absurd h hcmd
      · exact h
    rw [if_pos (by simpa using fun h => huid h.symm)]
    exact ⟨rfl, Or.inr rfl⟩

/-- Witness for C6 (amended): a response with command id 7 for a request
in flight for UID 1 is ignored with the buffer retained. -/
theorem c6_witness :
    (feed ⟨[], some ⟨1, 0⟩, some 1⟩ [7, 2, 0, 0, 0]).1 =
      { buffer := ([] : List Nat) ++ [7, 2, 0, 0, 0], current := some ⟨1, 0⟩,
        expectedUid := some 1 } ∧
    ((feed ⟨[], some ⟨1, 0⟩, some 1⟩ [7, 2, 0, 0, 0]).2 = .badCmd ∨
      (feed ⟨[], some ⟨1, 0⟩, some 1⟩ [7, 2, 0, 0, 0]).2 = .badUid) :=
  c6_mismatch_ignored ⟨[], some ⟨1, 0⟩, some 1⟩ [7, 2, 0, 0, 0] ⟨1, 0⟩ 1
    rfl rfl (by decide) (Or.inl (by decide))

/-- `CATEGORY_NAMES[categoryId as CategoryID] || "Unknown"`
(src/unnamed/part_005, lines 83–96 and 460): the fixed category-name
table, with "Unknown" for ids outside 0–11. -/
def categoryNameOf (c : Nat) : String :=
  match c with
  | 0 => "Other"
  | 1 => "Incoming Call"
  | 2 => "Missed Call"
  | 3 => "Voicemail"
  | 4 => "Social"
  | 5 => "Schedule"
  | 6 => "Email"
  | 7 => "News"
  | 8 => "Health & Fitness"
  | 9 => "Business & Finance"
  | 10 => "Location"
  | 11 => "Entertainment"
  | _ => "Unknown"

/-- The `ANCSNotification` record (src/unnamed/part_005, lines 34–51).
String attribute values are kept as raw byte lists, as in `Attributes`. -/
structure NotificationRecord where
  id : String
  eventId : Nat
  eventFlags : Nat
  categoryId : Nat
  categoryCount : Nat
  notificationUid : Nat
  timestamp : Nat
  categoryName : String
  isImportant : Bool
  appIdentifier : Option (List Nat) := none
  appDisplayName : Option (List Nat) := none
  title : Option (List Nat) := none
  subtitle : Option (List Nat) := none
  message : Option (List Nat) := none
  date : Option (List Nat) := none
  deriving DecidableEq

/-- What the Notification Source handler does with one event: drop it, or
enqueue a record into the attribute request queue
(`queueAttributeRequest`). -/
inductive RouteAction where
  | dropped
  | enqueued (r : NotificationRecord)
  deriving DecidableEq

/-- `handleNotificationSourceNotification` (src/unnamed/part_005, lines
403–471), given the decoded packet bytes and the current time (`Date.now()`
supplies both the `id` suffix and `timestamp`): packets shorter than
8 bytes are dropped; a `Removed` event (EventID 2) is ignored; otherwise a
`NotificationRecord` is constructed — `categoryName` from the category
table, `isImportant = (eventFlags & 0x01) !== 0`, no enrichment fields —
and passed to `queueAttributeRequest`. -/
def handleNotificationSourceNotification (bs : List Nat) (now : Nat) : RouteAction :=
  if bs.length < 8 then .dropped
  else if bs.getD 0 0 = 2 then .dropped
  else .enqueued {
    id := toString (readUInt32LE bs 4) ++ "-" ++ toString now
    eventId := bs.getD 0 0
    eventFlags := bs.getD 1 0
    categoryId := bs.getD 2 0
    categoryCount := bs.getD 3 0
    notificationUid := readUInt32LE bs 4
    timestamp := now
    categoryName := categoryNameOf (bs.getD 2 0)
    isImportant := (bs.getD 1 0) &&& 1 != 0 }

/-- The enrichment merge of `tryParseDataSourceResponse`
(src/unnamed/part_005, lines 685–703): spread the base record, overwrite
the five attribute fields with the parsed values, then set
`appDisplayName` from the app-name cache when the response carried an
`appIdentifier` that hits the cache (a miss only fires an asynchronous
app-name request and leaves the record unchanged). -/
def mergeAttributes (n : NotificationRecord) (a : Attributes)
    (cache : List Nat → Option (List Nat)) : NotificationRecord :=
  let base := { n with
    appIdentifier := a.appIdentifier
    title := a.title
    subtitle := a.subtitle
    message := a.message
    date := a.date }
  match a.appIdentifier with
  | some appId =>
    match cache appId with
    | some nm => { base with appDisplayName := some nm }
    | none => base
  | none => base

/-- C9: merge frame condition.  Merging a completed attribute set into its
record sets exactly the enrichment fields to the attributes of the
response (an attribute absent from the response leaves the field `none` —
never invented), sets `appDisplayName` only on a cache hit for a present
`appIdentifier`, and leaves every other field — id, eventId, eventFlags,
categoryId, categoryCount, notificationUid, timestamp, categoryName,
isImportant — unchanged. -/
theorem c9_merge_frame (n : NotificationRecord) (a : Attributes)
    (cache : List Nat → Option (List Nat)) :
    (mergeAttributes n a cache).id = n.id ∧
    (mergeAttributes n a cache).eventId = n.eventId ∧
    (mergeAttributes n a cache).eventFlags = n.eventFlags ∧
    (mergeAttributes n a cache).categoryId = n.categoryId ∧
    (mergeAttributes n a cache).categoryCount = n.categoryCount ∧
    (mergeAttributes n a cache).notificationUid = n.notificationUid ∧
    (mergeAttributes n a cache).timestamp = n.timestamp ∧
    (mergeAttributes n a cache).categoryName = n.categoryName ∧
    (mergeAttributes n a cache).isImportant = n.isImportant ∧
    (mergeAttributes n a cache).appIdentifier = a.appIdentifier ∧
    (mergeAttributes n a cache).title = a.title ∧
    (mergeAttributes n a cache).subtitle = a.subtitle ∧
    (mergeAttributes n a cache).message = a.message ∧
    (mergeAttributes n a cache).date = a.date ∧
    (mergeAttributes n a cache).appDisplayName =
      (match a.appIdentifier with
        | some app =>
          (match cache app with
            | some nm => some nm
            | none => n.appDisplayName)
        | none => n.appDisplayName) := by
  cases ha : a.appIdentifier with
  | none => simp [mergeAttributes, ha]
  | some app =>
    cases hc : cache app with
    | none => simp [mergeAttributes, ha, hc]
    | some nm => simp [mergeAttributes, ha, hc]

/-- Witness for C9 at a concrete record, attribute set and empty cache:
the merge leaves `categoryName` unchanged. -/
theorem c9_witness :
    (mergeAttributes
      { id := "42-0", eventId := 0, eventFlags := 0, categoryId := 6, categoryCount := 1, notificationUid := 42, timestamp := 0, categoryName := "Email", isImportant := false }
      { title := some [72] } (fun _ => none)).categoryName = "Email" :=
  (c9_merge_frame
    { id := "42-0", eventId := 0, eventFlags := 0, categoryId := 6, categoryCount := 1, notificationUid := 42, timestamp := 0, categoryName := "Email", isImportant := false }
    { title := some [72] } (fun _ => none)).2.2.2.2.2.2.2.1

/-- C8 counterexample: the claim requires `isImportant` to be true iff the
important flag bit is set OR the category is Incoming Call.  For the valid
Added event `[0, 0, 1, 1, 42, 0, 0, 0]` — flags 0, CategoryId 1 = Incoming
Call — the claim demands `isImportant = true` (second conjunct: the
category IS Incoming Call), but the engine
(src/unnamed/part_005, line 450: `(eventFlags & 0x01) !== 0`, no category
test) enqueues the record with `isImportant = false`. -/
theorem c8_counterexample :
    handleNotificationSourceNotification [0, 0, 1, 1, 42, 0, 0, 0] 0 =
      .enqueued { id := "42-0", eventId := 0, eventFlags := 0, categoryId := 1, categoryCount := 1, notificationUid := 42, timestamp := 0, categoryName := "Incoming Call", isImportant := false } ∧
    ((0 : Nat) &&& 1 ≠ 0 ∨ (1 : Nat) = 1) :=
  ⟨rfl, Or.inr rfl⟩

/-- C8 as amended: for every well-formed 8-byte Notification Source event,
a Removed event (EventId 2) never enqueues an attribute fetch, while an
Added (0) or Modified (1) event enqueues a `NotificationRecord` with the
decoded fields, derived `categoryName`, `isImportant` true iff the
important flag bit (0x01) of EventFlags is set — the category is not
consulted — and no enrichment fields. -/
theorem c8_routing (bs : List Nat) (now : Nat) (hlen : 8 ≤ bs.length)
    (_hev : bs.getD 0 0 = 0 ∨ bs.getD 0 0 = 1 ∨ bs.getD 0 0 = 2) :
    (bs.getD 0 0 = 2 → handleNotificationSourceNotification bs now = .dropped) ∧
    (bs.getD 0 0 ≠ 2 → handleNotificationSourceNotification bs now =
      .enqueued {
        id := toString (readUInt32LE bs 4) ++ "-" ++ toString now
        eventId := bs.getD 0 0
        eventFlags := bs.getD 1 0
        categoryId := bs.getD 2 0
        categoryCount := bs.getD 3 0
        notificationUid := readUInt32LE bs 4
        timestamp := now
        categoryName := categoryNameOf (bs.getD 2 0)
        isImportant := (bs.getD 1 0) &&& 1 != 0 }) := by
  unfold handleNotificationSourceNotification
  rw [if_neg (by omega)]
  constructor
  · intro h
    rw [if_pos h]
  · intro h
    rw [if_neg h]

/-- Witness for C8 (amended): a Modified Email event is enqueued with the
decoded fields, and a Removed event is dropped. -/
theorem c8_witness :
    handleNotificationSourceNotification [1, 0, 6, 1, 42, 0, 0, 0] 5 =
      .enqueued { id := "42-5", eventId := 1, eventFlags := 0, categoryId := 6, categoryCount := 1, notificationUid := 42, timestamp := 5, categoryName := "Email", isImportant := false } ∧
    handleNotificationSourceNotification [2, 0, 6, 1, 42, 0, 0, 0] 5 = .dropped :=
  ⟨(c8_routing [1, 0, 6, 1, 42, 0, 0, 0] 5 (by decide)
      (Or.inr (Or.inl rfl))).2 (by decide),
    (c8_routing [2, 0, 6, 1, 42, 0, 0, 0] 5 (by decide)
      (Or.inr (Or.inr rfl))).1 rfl⟩

/-- A queued or in-flight `AttributeRequest` (src/unnamed/part_005, lines
99–106) as seen by the scheduler: its UID, `retryCount`, and whether its
5-second timeout (`timeoutId`, armed only by `processNextRequest`) is
still pending. -/
structure QReq where
  uid : Nat
  retryCount : Nat
  timerArmed : Bool
  deriving DecidableEq

/-- The scheduler state of the engine (src/unnamed/part_005):
`requestQueue`, `currentRequest`, plus two ghost observations —
`outstanding`, the number of Control Point writes issued and not yet
terminated by a response, a timeout firing, a write error or a connection
loss (the quantity the single-flight invariant bounds), and `attempts`,
the total number of Get Notification Attributes writes issued — and the
list of records emitted to the caller (`uid`, enriched?). -/
structure EState where
  queue : List QReq
  current : Option QReq
  outstanding : Nat
  attempts : Nat
  emitted : List (Nat × Bool)
  deriving DecidableEq

/-- The engine before any notification arrives. -/
def initE : EState := ⟨[], none, 0, 0, []⟩

/-- `processNextRequest` (src/unnamed/part_005, lines 543–569): do nothing
if a request is already in flight or the backlog is empty; otherwise shift
the head of the backlog into `currentRequest`, arm its 5-second timeout
and issue the Control Point write.  `oks` feeds the outcome of each write
(`true` = accepted): a rejected write runs `handleRequestError` (lines
847–860) — the request is rejected, its promise's `catch` in
`queueAttributeRequest` (lines 536–540) still emits the basic record, the
slot is cleared and `processNextRequest` runs again. -/
def processNextGo (queue : List QReq) (outstanding attempts : Nat)
    (emitted : List (Nat × Bool)) (oks : List Bool) : EState :=
  match queue with
  | [] => ⟨[], none, outstanding, attempts, emitted⟩
  | r :: rest =>
    if oks.headD true then
      ⟨rest, some { r with timerArmed := true }, outstanding + 1,
        attempts + 1, emitted⟩
    else
      processNextGo rest outstanding (attempts + 1)
        (emitted ++ [(r.uid, false)]) oks.tail

/-- `processNextRequest` on the whole scheduler state: the guard
`if (this.currentRequest || this.requestQueue.length === 0) return`
(src/unnamed/part_005, line 544), then the promotion loop. -/
def processNext (s : EState) (oks : List Bool) : EState :=
  match s.current with
  | some _ => s
  | none => processNextGo s.queue s.outstanding s.attempts s.emitted oks

/-- The serialized events that drive the scheduler: a Notification Source
event enqueues a request (`queueAttributeRequest`, lines 506–541); the
armed timeout fires (`handleRequestTimeout`, lines 814–845); the current
response completes (`tryParseDataSourceResponse`, lines 705–715); the
connection drops (`cleanupConnection`, lines 900–947).  Each event that
can issue writes carries the write outcomes `oks`. -/
inductive Ev where
  | enqueue (uid : Nat) (oks : List Bool)
  | timeoutFire (oks : List Bool)
  | respComplete (oks : List Bool)
  | disconnect

/-- One serialized engine step.  `enqueue` appends to the backlog and runs
`processNextRequest` (which refuses to promote while a request is in
flight).  `timeoutFire` requires an in-flight request with an armed timer:
with `retryCount < 2` it increments the counter, clears the buffer and
resends the same command — the timed-out write is terminated, one new
write is outstanding, and the code arms no new timer (the retry branch of
`handleRequestTimeout` has no `setTimeout`); with `retryCount = 2` it
resolves the request with the basic record and advances.  `respComplete`
resolves the in-flight request with the enriched record and advances.
`disconnect` rejects the in-flight request and the whole backlog (each
rejection emits the basic record through the promise `catch`) and empties
the queue. -/
def step (s : EState) : Ev → EState
  | .enqueue uid oks =>
    processNext { s with queue := s.queue ++ [⟨uid, 0, false⟩] } oks
  | .timeoutFire oks =>
    match s.current with
    | none => s
    | some r =>
      if r.timerArmed then
        if r.retryCount < 2 then
          if oks.headD true then
            { s with current := some ⟨r.uid, r.retryCount + 1, false⟩
                     outstanding := 1
                     attempts := s.attempts + 1 }
          else
            processNext
              { s with current := none
                       outstanding := 0
                       attempts := s.attempts + 1
                       emitted := s.emitted ++ [(r.uid, false)] } oks.tail
        else
          processNext
            { s with current := none
                     outstanding := 0
                     emitted := s.emitted ++ [(r.uid, false)] } oks
      else s
  | .respComplete oks =>
    match s.current with
    | none => s
    | some r =>
      processNext
        { s with current := none
                 outstanding := 0
                 emitted := s.emitted ++ [(r.uid, true)] } oks
  | .disconnect =>
    { s with queue := []
             current := none
             outstanding := 0
             emitted := s.emitted
               ++ (match s.current with
                   | some r => [(r.uid, false)]
                   | none => [])
               ++ s.queue.map (fun r => (r.uid, false)) }

/-- The reachable engine states: `initE` and everything `step` produces. -/
inductive Reachable : EState → Prop where
  | init : Reachable initE
  | step {s : EState} (h : Reachable s) (e : Ev) : Reachable (step s e)

/-- The single-flight invariant as an inductive property: the writes
outstanding never exceed one, and an idle slot has none. -/
def Inv (s : EState) : Prop :=
  s.outstanding ≤ 1 ∧ (s.current = none → s.outstanding = 0)

/-- `processNextRequest` preserves the single-flight invariant: it issues
a write only after checking that no request is in flight, so the slot it
fills was empty and had no outstanding write. -/
theorem processNextGo_inv : ∀ (q : List QReq) (out att : Nat)
    (em : List (Nat × Bool)) (oks : List Bool), out = 0 →
    Inv (processNextGo q out att em oks)
  | [], out, att, em, oks, h =>
    ⟨show out ≤ 1 by omega, fun _ => h⟩
  | r :: rest, out, att, em, oks, h => by
    simp only [processNextGo]
    by_cases hok : oks.headD true
    · rw [if_pos hok]
      exact ⟨show out + 1 ≤ 1 by omega, fun hc => Option.noConfusion hc⟩
    · rw [if_neg hok]
      exact processNextGo_inv rest out (att + 1)
        (em ++ [(r.uid, false)]) oks.tail h

theorem processNext_inv (s : EState) (oks : List Bool) (h : Inv s) :
    Inv (processNext s oks) := by
  unfold processNext
  cases hc : s.current with
  | some r => exact h
  | none =>
    exact processNextGo_inv s.queue s.outstanding s.attempts s.emitted oks
      (h.2 hc)

/-- Every reachable state satisfies the invariant. -/
theorem reachable_inv (s : EState) (h : Reachable s) : Inv s := by
  induction h with
  | init => exact ⟨Nat.zero_le 1, fun _ => rfl⟩
  | step hs e ih =>
    rename_i s
    cases e with
    | enqueue uid oks =>
      exact processNext_inv _ oks ⟨ih.1, fun hc => ih.2 hc⟩
    | timeoutFire oks =>
      cases hcur : s.current with
      | none => simpa [step, hcur] using ih
      | some r =>
        simp only [step, hcur]
        by_cases harm : r.timerArmed
        · rw [if_pos harm]
          by_cases hretry : r.retryCount < 2
          · rw [if_pos hretry]
            by_cases hok : oks.headD true
            · rw [if_pos hok]
              exact ⟨Nat.le_refl 1, fun hc => Option.noConfusion hc⟩
            · rw [if_neg hok]
              exact processNext_inv _ _ ⟨Nat.zero_le 1, fun _ => rfl⟩
          · rw [if_neg hretry]
            exact processNext_inv _ _ ⟨Nat.zero_le 1, fun _ => rfl⟩
        · rw [if_neg harm]
          exact ih
    | respComplete oks =>
      cases hcur : s.current with
      | none => simpa [step, hcur] using ih
      | some r =>
        simp only [step, hcur]
        exact processNext_inv _ _ ⟨Nat.zero_le 1, fun _ => rfl⟩
    | disconnect =>
      exact ⟨Nat.zero_le 1, fun _ => rfl⟩

/-- C1: single-flight invariant.  In every reachable engine state at most
one Get Notification Attributes write has been issued on the Control
Point and not yet terminated by a response, timeout or connection loss;
and while a request is in flight, enqueueing another notification (any
number of them, hence any N ≥ 2) only appends it to the tail of the FIFO
backlog — `processNextRequest` refuses to issue its write until the slot
clears. -/
theorem c1_single_flight (s : EState) (h : Reachable s) :
    s.outstanding ≤ 1 ∧
    (∀ uid oks, s.current ≠ none →
      step s (.enqueue uid oks) = { s with queue := s.queue ++ [⟨uid, 0, false⟩] }) := by
  refine ⟨(reachable_inv s h).1, fun uid oks hcur => ?_⟩
  cases hc : s.current with
  | none => exact absurd hc hcur
  | some r =>
    simp only [step, processNext]
    rw [hc]

/-- Witness for C1: after enqueueing two notifications (N = 2), the
reachable state has at most one outstanding write, and a third enqueue
while the first is in flight only appends to the backlog. -/
theorem c1_witness :
    (step (step initE (.enqueue 1 [])) (.enqueue 2 [])).outstanding ≤ 1 ∧
    (step (step (step initE (.enqueue 1 [])) (.enqueue 2 [])) (.enqueue 3 []) =
      { step (step initE (.enqueue 1 [])) (.enqueue 2 []) with
        queue := (step (step initE (.enqueue 1 [])) (.enqueue 2 [])).queue
          ++ [⟨3, 0, false⟩] }) :=
  ⟨(c1_single_flight _ ((Reachable.init.step (.enqueue 1 [])).step (.enqueue 2 []))).1,
    (c1_single_flight _ ((Reachable.init.step (.enqueue 1 [])).step (.enqueue 2 []))).2
      3 [] (by decide)⟩

/-- C3: the engine at the failing input.  One notification is enqueued
(`step initE (.enqueue 7 [true])` issues the initial write, attempt 1, and
arms the timeout) and its Data Source responses never arrive.  The timeout
fires: `handleRequestTimeout` (src/unnamed/part_005, lines 814–845) sees
`retryCount = 0 < 2`, increments it and resends (attempt 2) — but its
retry branch never calls `setTimeout` again, so no timer is armed.  The
resulting state has made exactly 2 attempts (not 3), the request is still
in flight un-resolved, nothing has been emitted, and no further timeout
event can ever fire (`timerArmed = false` makes every `timeoutFire` a
no-op), so the degrade branch (`retryCount == 2`) is unreachable and the
queue stalls instead of resolving the request with the unenriched
record. -/
theorem c3_timeout_stall :
    (step initE (.enqueue 7 [true])).attempts = 1 ∧
    (step (step initE (.enqueue 7 [true])) (.timeoutFire [true])).attempts = 2 ∧
    (step (step initE (.enqueue 7 [true])) (.timeoutFire [true])).current =
      some ⟨7, 1, false⟩ ∧
    (step (step initE (.enqueue 7 [true])) (.timeoutFire [true])).emitted = [] ∧
    (∀ oks, step (step (step initE (.enqueue 7 [true])) (.timeoutFire [true]))
      (.timeoutFire oks) =
      step (step initE (.enqueue 7 [true])) (.timeoutFire [true])) := by
  refine ⟨rfl, rfl, rfl, rfl, fun oks => ?_⟩
  rfl

/-- Witness for C3 at a concrete later timeout event. -/
theorem c3_witness :
    step (step (step initE (.enqueue 7 [true])) (.timeoutFire [true]))
      (.timeoutFire [true]) =
    step (step initE (.enqueue 7 [true])) (.timeoutFire [true]) :=
  c3_timeout_stall.2.2.2.2 [true]

/-- `ConnectionState` (src/lib/bluetooth-service.ts, lines 103–107). -/
inductive CState where
  | disconnected
  | connecting
  | connected
  deriving DecidableEq

/-- The connection-lifecycle projection of the `BluetoothService` state
(src/lib/bluetooth-service.ts, lines 109–126): `connectionLock`,
`connectionState`, `connectedDevice` (device ids as `Nat`), `isDestroyed`
and whether the ANCS subscriptions are active. -/
structure ConnSt where
  connectionLock : Bool
  connectionState : CState
  connectedDevice : Option Nat
  isDestroyed : Bool
  subsActive : Bool
  deriving DecidableEq

/-- The environment outcomes of one `connectToDevice` run: whether the
device reports already connected at system level (`device.isConnected()`),
and whether the transport connect, `discoverAllServicesAndCharacteristics`
and `setupANCS` succeed. -/
structure ConnectOutcomes where
  systemConnected : Bool
  transportOk : Bool
  discoveryOk : Bool
  setupOk : Bool
  deriving DecidableEq

/-- The result of a `connectToDevice` call: success, the immediate
"Connection in progress" error, the "Service destroyed" error, or a throw
from one of the connect/discovery/setup stages. -/
inductive ConnectResult where
  | ok
  | errInProgress
  | errDestroyed
  | errStage
  deriving DecidableEq

/-- `connectToDevice` (src/lib/bluetooth-service.ts, lines 244–312) as a
state transformer.  The guards in code order: a held `connectionLock`
throws "Connection in progress" immediately; a destroyed service throws;
an already-connected same device returns early.  Otherwise the lock is
taken, the state goes to `Connecting`, and `cleanupExistingConnection`
clears the prior session.  A failure at the transport connect (reachable
only when the device is not already system-connected), at service
discovery or at `setupANCS` runs the catch block — subscriptions cleaned
up, `connectedDevice = null`, state `Disconnected` — and the `finally`
releases the lock.  On success the state is `Connected`, subscriptions are
active and the lock is released. -/
def connectToDevice (s : ConnSt) (dev : Nat) (oc : ConnectOutcomes) :
    ConnectResult × ConnSt :=
  if s.connectionLock then (.errInProgress, s)
  else if s.isDestroyed then (.errDestroyed, s)
  else if s.connectedDevice = some dev ∧ s.connectionState = .connected then
    (.ok, s)
  else if ¬ oc.systemConnected ∧ ¬ oc.transportOk then
    (.errStage, ⟨false, .disconnected, none, s.isDestroyed, false⟩)
  else if ¬ oc.discoveryOk then
    (.errStage, ⟨false, .disconnected, none, s.isDestroyed, false⟩)
  else if ¬ oc.setupOk then
    (.errStage, ⟨false, .disconnected, none, s.isDestroyed, false⟩)
  else (.ok, ⟨false, .connected, some dev, s.isDestroyed, true⟩)

/-- With the connection lock free, `connectToDevice` never reports
"Connection in progress". -/
theorem connect_ne_inprogress (s : ConnSt) (h : s.connectionLock = false)
    (dev : Nat) (oc : ConnectOutcomes) :
    (connectToDevice s dev oc).1 ≠ .errInProgress := by
  intro hcontra
  unfold connectToDevice at hcontra
  split_ifs at hcontra
  all_goals simp_all

/-- C7: connect exclusivity and failure atomicity.  Calling
`connectToDevice` while the connection lock is held fails immediately with
the "Connection in progress" error and changes nothing; and whenever any
stage of connecting (transport connect, service discovery, subscription
setup) fails, the resulting state is `Disconnected` with no device and the
lock released, so a subsequent `connectToDevice` call is never rejected
with "Connection in progress". -/
theorem c7_connect_exclusivity (s : ConnSt) (dev : Nat) (oc : ConnectOutcomes) :
    (s.connectionLock = true → connectToDevice s dev oc = (.errInProgress, s)) ∧
    (∀ s1, connectToDevice s dev oc = (.errStage, s1) →
      s1.connectionState = .disconnected ∧ s1.connectionLock = false ∧
      s1.connectedDevice = none ∧
      ∀ dev2 oc2, (connectToDevice s1 dev2 oc2).1 ≠ .errInProgress) := by
  constructor
  · intro h
    unfold connectToDevice
    rw [if_pos h]
  · intro s1 h
    unfold connectToDevice at h
    split_ifs at h
    all_goals injection h with h1 h2
    all_goals first
      | (subst h2
         exact ⟨rfl, rfl, rfl, fun dev2 oc2 => connect_ne_inprogress _ rfl dev2 oc2⟩)
      | cases h1

/-- Witness for C7: a locked service rejects a connect call unchanged, and
after a connect whose transport stage fails the state is `Disconnected`. -/
theorem c7_witness :
    connectToDevice ⟨true, .connecting, none, false, false⟩ 1
        ⟨false, false, false, false⟩ =
      (.errInProgress, ⟨true, .connecting, none, false, false⟩) ∧
    (⟨false, .disconnected, none, false, false⟩ : ConnSt).connectionState =
      .disconnected :=
  ⟨(c7_connect_exclusivity ⟨true, .connecting, none, false, false⟩ 1
      ⟨false, false, false, false⟩).1 rfl,
    ((c7_connect_exclusivity ⟨false, .disconnected, none, false, false⟩ 1
      ⟨false, false, false, false⟩).2
        ⟨false, .disconnected, none, false, false⟩ (by decide)).1⟩

/-- C5: Notification Source decoding.  For every buffer of length ≥ 8 the
decoder extracts EventId, EventFlags, CategoryId, CategoryCount from bytes
0–3 and the UID as the little-endian 32-bit integer of bytes 4–7,
independent of the other bytes; the bytes 00 00 06 01 2A 00 00 00 decode to
EventId=Added(0), EventFlags=0, CategoryId=6, CategoryCount=1, UID=42; and
every buffer of length < 8 is rejected (the event is dropped).  The decoder
is a total function over `getD`-reads, so no out-of-bounds access and no
exception can escape the transport callback. -/
theorem c5_notification_source_decode :
    (∀ bs : List Nat, 8 ≤ bs.length →
      decodeNotificationSource bs =
        some ⟨bs.getD 0 0, bs.getD 1 0, bs.getD 2 0, bs.getD 3 0,
          bs.getD 4 0 + 256 * bs.getD 5 0 + 65536 * bs.getD 6 0
            + 16777216 * bs.getD 7 0⟩) ∧
    decodeNotificationSource [0, 0, 6, 1, 42, 0, 0, 0] = some ⟨0, 0, 6, 1, 42⟩ ∧
    (∀ bs : List Nat, bs.length < 8 → decodeNotificationSource bs = none) := by
  refine ⟨fun bs h => ?_, by decide, fun bs h => ?_⟩
  · unfold decodeNotificationSource readUInt32LE
    rw [if_neg (by omega)]
  · simp only [decodeNotificationSource, if_pos h]

/-- Witness for C5 at concrete inputs: an 8-byte buffer decodes to its
fields, and a 2-byte buffer is rejected. -/
theorem c5_witness :
    decodeNotificationSource [1, 2, 3, 4, 5, 6, 7, 8] =
      some ⟨1, 2, 3, 4, 5 + 256 * 6 + 65536 * 7 + 16777216 * 8⟩ ∧
    decodeNotificationSource [1, 2] = none := by
  exact ⟨c5_notification_source_decode.1 [1, 2, 3, 4, 5, 6, 7, 8] (by decide),
    c5_notification_source_decode.2.2 [1, 2] (by decide)⟩

/-- C10: command encoding and header round-trip.  For every UID below 2³²
the encoded Get Notification Attributes command is exactly command id 0,
the 4 UID bytes little-endian, then per requested attribute one id byte
with a 2-byte little-endian maximum length only for the variable-length
attributes Title (255), Subtitle (255) and Message (500) — App Identifier
(id 0) and Date (id 5) carry no length field; and decoding only the header
of that buffer recovers command id 0 and the UID. -/
theorem c10_command_roundtrip (uid : Nat) (h : uid < 4294967296) :
    requestAttributesCommand uid =
      [0] ++ [uid % 256, uid / 256 % 256, uid / 65536 % 256, uid / 16777216 % 256]
        ++ [0] ++ ([1] ++ [255, 0]) ++ ([2] ++ [255, 0]) ++ ([3] ++ [244, 1]) ++ [5] ∧
    decodeResponseHeader (requestAttributesCommand uid) = some (0, uid) := by
  constructor
  · rfl
  · simp only [decodeResponseHeader, requestAttributesCommand, uidBytesLE,
      readUInt32LE]
    norm_num [List.getD]
    omega

/-- Witness for C10 at UID 42. -/
theorem c10_witness :
    requestAttributesCommand 42 =
      [0] ++ [42 % 256, 42 / 256 % 256, 42 / 65536 % 256, 42 / 16777216 % 256]
        ++ [0] ++ ([1] ++ [255, 0]) ++ ([2] ++ [255, 0]) ++ ([3] ++ [244, 1]) ++ [5] ∧
    decodeResponseHeader (requestAttributesCommand 42) = some (0, 42) :=
  c10_command_roundtrip 42 (by decide)

end ANCS
